import Mathlib

/-!
Verification of the session facility of the `exchange` package
(`interface.go`): the `SessionID` identity type, the process-wide
allocation counter `lastSessionID`, and the context-scoped session
registry (`NewSession`, `GetOrCreateSession`, `createSession`).

Embedding notes.
* Go's `context.Context` is an immutable value carrier: deriving a child
  context (`context.WithValue`, `context.WithDeadline`, ...) produces a
  new value whose `Value` lookup walks up through the ancestors.  We
  embed it as the inductive `Context`:
  - `root tag` — a root context (`context.Background()` and the like);
  - `withOther parent tag` — a child derived with anything other than a
    session binding (a deadline, cancellation, some other key);
  - `withSessionValue parent sesID` — the context produced by
    `context.WithValue(parent, sessionContextKey{}, ctxValue)` inside
    `createSession`.
  In the Go code the stored `*sessionContextValue` has its `sesCtx`
  field set to exactly the context returned by that `WithValue` call,
  a cyclic structure.  An inductive cannot hold the literal cycle, so
  `lookupSession` reconstructs it: at a `withSessionValue` node the
  stored `sesCtx` IS that node, which is what the match returns.  This
  is faithful because `sessionContextKey` and `sessionContextValue` are
  unexported, so the only code ever attaching this key is
  `createSession`, which always closes the cycle this way.
* `var lastSessionID uint64` is process-wide mutable state; we pass it
  explicitly as `AllocState`.  `atomic.AddUint64` wraps modulo 2^64,
  hence the `% uint64Mod` in `createSession`.
* `fmt.Sprintf "session-%d"` on a `uint64` renders the decimal digits,
  embedded with `Nat.repr`.
-/

namespace Exchange

/-- 2^64, the modulus of Go's `uint64` arithmetic. -/
def uint64Mod : Nat := 2 ^ 64

/-- `SessionID` wraps a `uint64` (embedded as `Nat` reduced mod 2^64 at
every operation that could overflow). -/
structure SessionID where
  id : Nat
  deriving DecidableEq, Repr

/-- Go: `func (id SessionID) IsZero() bool { return id.id == 0 }`. -/
def SessionID.IsZero (s : SessionID) : Bool := s.id == 0

/-- Go: `func (id SessionID) String() string`, i.e.
`fmt.Sprintf("session-%d", id.id)`.  Named `render` because `String` is
taken by Lean's string type. -/
def SessionID.render (s : SessionID) : String := "session-" ++ Nat.repr s.id

/-- A Go `context.Context`, restricted to the structure relevant to the
session registry: roots, non-session derivations, and the
session-binding derivation produced by `createSession`. -/
inductive Context where
  | root (tag : Nat) : Context
  | withOther (parent : Context) (tag : Nat) : Context
  | withSessionValue (parent : Context) (sesID : SessionID) : Context
  deriving DecidableEq, Repr

/-- `ctx.Value(sessionContextKey{}).(*sessionContextValue)` with the
comma-ok assertion: walks up the ancestry; at the innermost session
binding it yields the stored pair `(sesID, sesCtx)`.  `sesCtx` is the
very context the binding was attached to (the cycle closed at the end
of `createSession`). -/
def Context.lookupSession : Context → Option (SessionID × Context)
  | .root _ => none
  | .withOther p _ => p.lookupSession
  | .withSessionValue p i => some (i, .withSessionValue p i)

/-- The process-wide allocator state: `var lastSessionID uint64`. -/
structure AllocState where
  lastSessionID : Nat
  deriving DecidableEq, Repr

/-- The allocator state at process start: Go zero-initializes
`lastSessionID` to 0. -/
def initialAllocState : AllocState := ⟨0⟩

/-- Go: `func createSession(ctx context.Context) (SessionID, context.Context)`.
Allocates `atomic.AddUint64(&lastSessionID, 1)` (wrapping mod 2^64),
derives the child context carrying the binding, and closes the cycle
(`ctxValue.sesCtx = ctx`), which the `withSessionValue` node encodes. -/
def createSession (st : AllocState) (ctx : Context) :
    SessionID × Context × AllocState :=
  let n := (st.lastSessionID + 1) % uint64Mod
  let id : SessionID := ⟨n⟩
  (id, Context.withSessionValue ctx id, ⟨n⟩)

/-- Go: `func NewSession(ctx context.Context) context.Context`. -/
def NewSession (st : AllocState) (ctx : Context) : Context × AllocState :=
  match ctx.lookupSession with
  | some _ => (ctx, st)
  | none =>
    let r := createSession st ctx
    (r.2.1, r.2.2)

/-- Go: `func GetOrCreateSession(ctx context.Context) (SessionID, context.Context)`. -/
def GetOrCreateSession (st : AllocState) (ctx : Context) :
    SessionID × Context × AllocState :=
  match ctx.lookupSession with
  | some (i, c) => (i, c, st)
  | none => createSession st ctx

/-- A sequence of `GetOrCreateSession` calls, one per context in the
list, threading the allocator state: the sequentialization of a set of
racing callers (the counter is the only shared state and its increment
is atomic, so every concurrent execution linearizes to some such
list order). -/
def runGetOrCreate (st : AllocState) : List Context → List SessionID × AllocState
  | [] => ([], st)
  | c :: rest =>
    let r := GetOrCreateSession st c
    let rest' := runGetOrCreate r.2.2 rest
    (r.1 :: rest'.1, rest'.2)

/-- Deriving a context strictly increases its depth, so a derived
context is never equal to its parent. -/
def Context.depth : Context → Nat
  | .root _ => 0
  | .withOther p _ => p.depth + 1
  | .withSessionValue p _ => p.depth + 1

theorem withSessionValue_ne (ctx : Context) (i : SessionID) :
    Context.withSessionValue ctx i ≠ ctx := by
  intro h
  have hd := congrArg Context.depth h
  simp [Context.depth] at hd

/-- Claim C1: on a context that carries a session binding (directly or
through any ancestor), `GetOrCreateSession` returns the `SessionID`
bound at creation time together with the original binding context (the
stored `sesCtx`), not the context passed in, and does not touch the
allocator. -/
theorem getOrCreateSession_returns_original_binding
    (st : AllocState) (ctx : Context) (i : SessionID) (c : Context)
    (h : ctx.lookupSession = some (i, c)) :
    GetOrCreateSession st ctx = (i, c, st) := by
  simp [GetOrCreateSession, h]

/-- Witness for C1, the spec scenario: `GetOrCreateSession` on the root
`S0` creates `(id 1, S1)`; on `S2` derived from `S1` it returns exactly
`(id 1, S1)`, and `S1 ≠ S2`. -/
theorem getOrCreateSession_returns_original_binding_witness :
    GetOrCreateSession initialAllocState (Context.root 0)
      = (⟨1⟩, Context.withSessionValue (Context.root 0) ⟨1⟩, ⟨1⟩) ∧
    GetOrCreateSession ⟨1⟩
        (Context.withOther (Context.withSessionValue (Context.root 0) ⟨1⟩) 5)
      = (⟨1⟩, Context.withSessionValue (Context.root 0) ⟨1⟩, ⟨1⟩) ∧
    Context.withOther (Context.withSessionValue (Context.root 0) ⟨1⟩) 5
      ≠ Context.withSessionValue (Context.root 0) ⟨1⟩ :=
  ⟨by decide,
   getOrCreateSession_returns_original_binding ⟨1⟩ _ ⟨1⟩ _ rfl,
   by decide⟩

/-- Claim C2: `NewSession` is idempotent.  A context already carrying a
binding is returned unchanged with no allocation; running `NewSession`
twice along the same ancestry returns the first call's result unchanged
(hence the same bound `SessionID`), and the allocator counter advances
at most once over the whole ancestry chain. -/
theorem newSession_idempotent (st : AllocState) (ctx : Context) :
    (∀ v, ctx.lookupSession = some v → NewSession st ctx = (ctx, st)) ∧
    NewSession (NewSession st ctx).2 (NewSession st ctx).1 = NewSession st ctx ∧
    ((NewSession (NewSession st ctx).2 (NewSession st ctx).1).1.lookupSession).map Prod.fst
      = ((NewSession st ctx).1.lookupSession).map Prod.fst ∧
    (NewSession st ctx).2.lastSessionID ≤ st.lastSessionID + 1 := by
  cases h : ctx.lookupSession with
  | some v =>
      have h1 : NewSession st ctx = (ctx, st) := by simp [NewSession, h]
      refine ⟨fun _ _ => h1, ?_, ?_, ?_⟩
      · rw [h1]
        simpa using h1
      · rw [h1]
        simp [h1]
      · rw [h1]
        exact Nat.le_succ _
  | none =>
      have h1 : NewSession st ctx
          = (Context.withSessionValue ctx ⟨(st.lastSessionID + 1) % uint64Mod⟩,
             ⟨(st.lastSessionID + 1) % uint64Mod⟩) := by
        simp [NewSession, h, createSession]
      refine ⟨fun v hv => (by simp [h] at hv), ?_, ?_, ?_⟩
      · rw [h1]
        simp [NewSession, Context.lookupSession]
      · rw [h1]
        simp [NewSession, Context.lookupSession]
      · rw [h1]
        simpa using Nat.mod_le (st.lastSessionID + 1) uint64Mod

/-- Witness for C2 at a context already carrying a binding: `NewSession`
returns it unchanged. -/
theorem newSession_idempotent_witness :
    NewSession ⟨3⟩ (Context.withSessionValue (Context.root 0) ⟨1⟩)
      = (Context.withSessionValue (Context.root 0) ⟨1⟩, ⟨3⟩) :=
  (newSession_idempotent ⟨3⟩ (Context.withSessionValue (Context.root 0) ⟨1⟩)).1
    (⟨1⟩, Context.withSessionValue (Context.root 0) ⟨1⟩) rfl

/-- Claim C3: the creation primitive establishes the self-referential
binding: looking the session up through the context returned by
`createSession` (and hence by `NewSession` / `GetOrCreateSession` when
they create a fresh session) yields that very context as the session's
owning scope. -/
theorem createSession_self_reference (st : AllocState) (ctx : Context) :
    ((createSession st ctx).2.1).lookupSession
      = some ((createSession st ctx).1, (createSession st ctx).2.1) ∧
    (ctx.lookupSession = none →
      ((NewSession st ctx).1).lookupSession
        = some ((createSession st ctx).1, (NewSession st ctx).1) ∧
      ((GetOrCreateSession st ctx).2.1).lookupSession
        = some ((GetOrCreateSession st ctx).1, (GetOrCreateSession st ctx).2.1)) := by
  refine ⟨?_, fun h => ⟨?_, ?_⟩⟩ <;>
    simp [NewSession, GetOrCreateSession, createSession, Context.lookupSession, *]

/-- Witness for C3 at the root context with a fresh allocator. -/
theorem createSession_self_reference_witness :
    ((NewSession initialAllocState (Context.root 0)).1).lookupSession
      = some ((createSession initialAllocState (Context.root 0)).1,
              (NewSession initialAllocState (Context.root 0)).1) ∧
    ((GetOrCreateSession initialAllocState (Context.root 0)).2.1).lookupSession
      = some ((GetOrCreateSession initialAllocState (Context.root 0)).1,
              (GetOrCreateSession initialAllocState (Context.root 0)).2.1) :=
  (createSession_self_reference initialAllocState (Context.root 0)).2 rfl

/-- Claim C4: the zero `SessionID` reports `IsZero = true`; every
allocator-produced `SessionID` (the one returned by `createSession`,
hence by `GetOrCreateSession` and bound by `NewSession` on fresh
creation) reports `IsZero = false` and its raw value is never 0.  The
hypothesis rules out 64-bit counter wraparound, which the spec treats
as out of scope. -/
theorem sessionID_zero_invalid_allocated_valid
    (st : AllocState) (ctx : Context)
    (h : st.lastSessionID + 1 < uint64Mod) :
    SessionID.IsZero ⟨0⟩ = true ∧
    SessionID.IsZero (createSession st ctx).1 = false ∧
    (createSession st ctx).1.id ≠ 0 ∧
    (ctx.lookupSession = none →
      SessionID.IsZero (GetOrCreateSession st ctx).1 = false ∧
      ((NewSession st ctx).1.lookupSession).map (fun v => SessionID.IsZero v.1)
        = some false) := by
  have hn : (st.lastSessionID + 1) % uint64Mod = st.lastSessionID + 1 :=
    Nat.mod_eq_of_lt h
  refine ⟨rfl, ?_, ?_, ?_⟩
  · simp [createSession, SessionID.IsZero, hn]
  · simp [createSession, hn]
  · intro hfree
    constructor <;>
      simp [createSession, GetOrCreateSession, NewSession, SessionID.IsZero,
        Context.lookupSession, hn, hfree]

/-- Witness for C4 with the fresh allocator at the root context. -/
theorem sessionID_zero_invalid_allocated_valid_witness :
    SessionID.IsZero ⟨0⟩ = true ∧
    SessionID.IsZero (createSession initialAllocState (Context.root 0)).1 = false ∧
    SessionID.IsZero (GetOrCreateSession initialAllocState (Context.root 0)).1 = false := by
  have h := sessionID_zero_invalid_allocated_valid initialAllocState (Context.root 0)
    (by decide)
  exact ⟨h.1, h.2.1, (h.2.2.2 rfl).1⟩

/-- Claim C5: allocation is one increment of the counter (which starts
at 0 at process start), so successive allocations produce strictly
increasing, never-zero `SessionID` values; 64-bit wraparound is out of
scope (the hypothesis). -/
theorem allocator_strictly_increasing
    (st : AllocState) (ctx ctx2 : Context)
    (h : st.lastSessionID + 2 < uint64Mod) :
    (createSession st ctx).1.id = st.lastSessionID + 1 ∧
    st.lastSessionID < (createSession st ctx).1.id ∧
    (createSession st ctx).2.2.lastSessionID = st.lastSessionID + 1 ∧
    (createSession st ctx).1.id
      < (createSession (createSession st ctx).2.2 ctx2).1.id ∧
    (createSession st ctx).1.id ≠ 0 ∧
    initialAllocState.lastSessionID = 0 := by
  have h1 : (st.lastSessionID + 1) % uint64Mod = st.lastSessionID + 1 :=
    Nat.mod_eq_of_lt (by omega)
  have h2 : (st.lastSessionID + 1 + 1) % uint64Mod = st.lastSessionID + 2 := by
    rw [Nat.mod_eq_of_lt (by omega)]
  refine ⟨?_, ?_, ?_, ?_, ?_, rfl⟩ <;>
    simp [createSession, h1, h2]

/-- Witness for C5: the first two allocations of a fresh process yield
ids 1 and 2. -/
theorem allocator_strictly_increasing_witness :
    (createSession initialAllocState (Context.root 0)).1.id = 1 ∧
    (createSession initialAllocState (Context.root 0)).1.id
      < (createSession (createSession initialAllocState (Context.root 0)).2.2
          (Context.root 1)).1.id := by
  have h := allocator_strictly_increasing initialAllocState (Context.root 0)
    (Context.root 1) (by decide)
  exact ⟨h.1, h.2.2.2.1⟩

/-- Claim C7: `NewSession` and `GetOrCreateSession` are total: every
input yields one of the two normal return shapes (reuse the existing
binding, or create a fresh session); there is no error value and no
failing branch. -/
theorem registry_operations_total (st : AllocState) (ctx : Context) :
    (NewSession st ctx = (ctx, st) ∨
      NewSession st ctx = ((createSession st ctx).2.1, (createSession st ctx).2.2)) ∧
    ((∃ v, ctx.lookupSession = some v ∧ GetOrCreateSession st ctx = (v.1, v.2, st)) ∨
      (ctx.lookupSession = none ∧ GetOrCreateSession st ctx = createSession st ctx)) := by
  cases h : ctx.lookupSession with
  | some v =>
      obtain ⟨i, c⟩ := v
      exact ⟨Or.inl (by simp [NewSession, h]),
             Or.inl ⟨(i, c), rfl, by simp [GetOrCreateSession, h]⟩⟩

  | none =>
      exact ⟨Or.inr (by simp [NewSession, h]),
             Or.inr ⟨rfl, by simp [GetOrCreateSession, h]⟩⟩

/-- Claim C8: `SessionID` rendering is deterministic and human-readable:
`render` produces the text `session-` followed by the decimal digits of
the wrapped value; value 7 renders as `session-7`. -/
theorem sessionID_render_deterministic
    (a b : SessionID) (n : Nat) (h : a.id = b.id) :
    SessionID.render ⟨n⟩ = "session-" ++ Nat.repr n ∧
    SessionID.render a = SessionID.render b ∧
    SessionID.render ⟨7⟩ = "session-7" := by
  refine ⟨rfl, ?_, rfl⟩
  simp [SessionID.render, h]

/-- Witness for C8 at two ids with equal raw value 7. -/
theorem sessionID_render_deterministic_witness :
    SessionID.render ⟨7⟩ = "session-7" :=
  (sessionID_render_deterministic ⟨7⟩ ⟨7⟩ 7 rfl).2.2

/-- Claim C9: `render` performs no validity check: the zero (invalid) id
renders as `session-0`, in exactly the same `session-` + decimal shape
as every other id. -/
theorem render_ignores_validity :
    SessionID.IsZero ⟨0⟩ = true ∧
    SessionID.render ⟨0⟩ = "session-0" ∧
    (∀ n : Nat, SessionID.render ⟨n⟩ = "session-" ++ Nat.repr n) :=
  ⟨rfl, rfl, fun _ => rfl⟩

/-- Claim C10: the registry never modifies the context passed in: on
fresh creation the binding is attached only to a newly derived child
context (distinct from the input), and the input context itself still
carries no binding. -/
theorem registry_does_not_modify_input
    (st : AllocState) (ctx : Context) (h : ctx.lookupSession = none) :
    (NewSession st ctx).1 = Context.withSessionValue ctx (createSession st ctx).1 ∧
    (GetOrCreateSession st ctx).2.1
      = Context.withSessionValue ctx (GetOrCreateSession st ctx).1 ∧
    (GetOrCreateSession st ctx).2.1 ≠ ctx ∧
    ctx.lookupSession = none := by
  refine ⟨by simp [NewSession, h, createSession],
          by simp [GetOrCreateSession, h, createSession], ?_, h⟩
  have hne := withSessionValue_ne ctx (createSession st ctx).1
  simpa [GetOrCreateSession, h, createSession] using hne

/-- Witness for C10 at the root context with a fresh allocator. -/
theorem registry_does_not_modify_input_witness :
    (NewSession initialAllocState (Context.root 0)).1
      = Context.withSessionValue (Context.root 0)
          (createSession initialAllocState (Context.root 0)).1 ∧
    (GetOrCreateSession initialAllocState (Context.root 0)).2.1 ≠ Context.root 0 := by
  have h := registry_does_not_modify_input initialAllocState (Context.root 0) rfl
  exact ⟨h.1, h.2.2.1⟩

/-- Running `GetOrCreateSession` over binding-free contexts allocates
consecutive counter values: the k-th call returns id
`st.lastSessionID + k + 1`, and the final counter has advanced by the
number of calls (one allocation per call, no wraparound assumed). -/
theorem runGetOrCreate_fresh (ctxs : List Context) :
    ∀ st : AllocState,
      (∀ c ∈ ctxs, c.lookupSession = none) →
      st.lastSessionID + ctxs.length < uint64Mod →
      (runGetOrCreate st ctxs).1
        = (List.range ctxs.length).map (fun k => SessionID.mk (st.lastSessionID + k + 1)) ∧
      (runGetOrCreate st ctxs).2.lastSessionID = st.lastSessionID + ctxs.length := by
  induction ctxs with
  | nil =>
      intro st _ _
      simp [runGetOrCreate]
  | cons c rest ih =>
      intro st hall hb
      have hc : c.lookupSession = none := hall c (by simp)
      have h1 : st.lastSessionID + 1 < uint64Mod := by
        simp only [List.length_cons] at hb
        omega
      have hn : (st.lastSessionID + 1) % uint64Mod = st.lastSessionID + 1 :=
        Nat.mod_eq_of_lt h1
      have hstep : GetOrCreateSession st c
          = (⟨st.lastSessionID + 1⟩,
             Context.withSessionValue c ⟨st.lastSessionID + 1⟩,
             ⟨st.lastSessionID + 1⟩) := by
        simp [GetOrCreateSession, hc, createSession, hn]
      have hrest := ih ⟨st.lastSessionID + 1⟩
        (fun x hx => hall x (by simp [hx]))
        (by
          simp only [List.length_cons] at hb
          show st.lastSessionID + 1 + rest.length < uint64Mod
          omega)
      simp only at hrest
      constructor
      · show ((runGetOrCreate st (c :: rest)).1) = _
        simp only [runGetOrCreate, hstep, List.length_cons, List.range_succ_eq_map,
          List.map_cons, List.map_map]
        refine congrArg₂ List.cons (by simp) ?_
        rw [hrest.1]
        refine List.map_congr_left ?_
        intro k _
        simp only [Function.comp]
        congr 1
        omega
      · show ((runGetOrCreate st (c :: rest)).2.lastSessionID) = _
        simp only [runGetOrCreate, hstep, List.length_cons]
        rw [hrest.2]
        omega

/-- Claim C6: racing first-time registry calls on binding-free sibling
scopes — modelled by an arbitrary linearization of the calls, sound
because the atomic counter is the only shared state — give each call
exactly one allocation (the counter advances by exactly the number of
calls) and no two calls ever share a `SessionID`. -/
theorem racing_siblings_unique_ids
    (st : AllocState) (ctxs : List Context)
    (hall : ∀ c ∈ ctxs, c.lookupSession = none)
    (hb : st.lastSessionID + ctxs.length < uint64Mod) :
    ((runGetOrCreate st ctxs).1).Nodup ∧
    (runGetOrCreate st ctxs).1.length = ctxs.length ∧
    (runGetOrCreate st ctxs).2.lastSessionID = st.lastSessionID + ctxs.length := by
  obtain ⟨h1, h2⟩ := runGetOrCreate_fresh ctxs st hall hb
  refine ⟨?_, ?_, h2⟩
  · rw [h1]
    refine List.Nodup.map ?_ (List.nodup_range _)
    intro a b hab
    have h3 := congrArg SessionID.id hab
    simp only at h3
    omega
  · rw [h1]
    simp

/-- Witness for C6: two sibling scopes of the same root, raced against a
fresh allocator, receive the distinct ids 1 and 2. -/
theorem racing_siblings_unique_ids_witness :
    ((runGetOrCreate initialAllocState
        [Context.withOther (Context.root 0) 1,
         Context.withOther (Context.root 0) 2]).1).Nodup ∧
    (runGetOrCreate initialAllocState
        [Context.withOther (Context.root 0) 1,
         Context.withOther (Context.root 0) 2]).1.length = 2 ∧
    (runGetOrCreate initialAllocState
        [Context.withOther (Context.root 0) 1,
         Context.withOther (Context.root 0) 2]).2.lastSessionID = 2 :=
  racing_siblings_unique_ids initialAllocState
    [Context.withOther (Context.root 0) 1, Context.withOther (Context.root 0) 2]
    (by decide) (by decide)

end Exchange
